import Mathlib

/-!
Verification of the sqlite3pp wrapper (sqlite3pp.h) against its
natural-language specification.

The repository ships only the header: the class declarations and the inline
template members (bindstream::operator<<, getstream::operator>>, the
get_columns family, and the default arguments of binder/getter) are source
code; the out-of-line method bodies (statement lifecycle, transaction
control, execute_all, the engine calls themselves) are not in the tree, so
those parts are modelled from the specification, as marked on each
definition.

Machine integers: SQLite status codes are small nonnegative constants, so
they are modelled as Nat. The C double payload of a floating value is only
stored and returned by the code under verification, never computed on, so it
is modelled as an opaque rational payload.
-/

namespace Sqlite3pp

/-- Engine status code SQLITE_OK (0). -/
def SQLITE_OK : Nat := 0

/-- Engine status code SQLITE_ROW (100): a row of data is ready. -/
def SQLITE_ROW : Nat := 100

/-- Engine status code SQLITE_DONE (101): stepping has finished. -/
def SQLITE_DONE : Nat := 101

/-- Engine status code SQLITE_RANGE (25): bind parameter index out of range. -/
def SQLITE_RANGE : Nat := 25

/-- Modelled from the spec (section 3, Row): the dynamically-typed column
value model with its five storage classes - integer, floating-point, text,
binary, null. The floating payload is an opaque rational (it is carried,
never computed on); the binary payload is a byte list. -/
inductive Value where
  | integer (i : Int)
  | floating (r : Rat)
  | text (s : String)
  | blob (b : List Nat)
  | null
  deriving DecidableEq, Repr

/-- Modelled from the spec (section 3, Row): the engine coercion from the
stored class to a requested integer - an integer is returned unchanged, a
floating value is truncated, text is numerically parsed defaulting to zero
on failure, blob and null yield zero. -/
def Value.asInt : Value → Int
  | .integer i => i
  | .floating r => r.floor
  | .text s => (s.toInt?).getD 0
  | .blob _ => 0
  | .null => 0

/-- Modelled from the spec (section 3, Row): the engine coercion from the
stored class to a requested floating value - a floating value is returned
unchanged, an integer is widened, text is numerically parsed defaulting to
zero (decimal fractions abstracted to the integral parse), blob and null
yield zero. -/
def Value.asFloat : Value → Rat
  | .integer i => (i : Rat)
  | .floating r => r
  | .text s => (((s.toInt?).getD 0 : Int) : Rat)
  | .blob _ => 0
  | .null => 0

/-- Modelled from the spec (section 3, Row): the engine coercion from the
stored class to requested text - text is returned unchanged, numbers are
rendered (rendering of a floating payload abstracted to its numerator),
a blob is passed through as bytes decoded positionally, null yields the
empty/absent value. -/
def Value.asText : Value → String
  | .integer i => toString i
  | .floating r => toString r.num
  | .text s => s
  | .blob b => String.mk (b.map (fun n => Char.ofNat n))
  | .null => ""

/-- Modelled from the spec (section 3, Row): the engine coercion from the
stored class to requested binary - a blob is returned unchanged, text is
viewed as its code points, numbers and null yield the empty byte run. -/
def Value.asBlob : Value → List Nat
  | .integer _ => []
  | .floating _ => []
  | .text s => s.data.map Char.toNat
  | .blob b => b
  | .null => []

/-- The four non-null storage classes a caller can request statically,
mirroring the four get overload targets int/long long, double,
text, and raw bytes of query::rows. -/
inductive ColKind where
  | kint
  | kfloat
  | ktext
  | kblob
  deriving DecidableEq, Repr

/-- The storage class a value of one of the four non-null categories
carries, as a ColKind when it has one. -/
def Value.kind? : Value → Option ColKind
  | .integer _ => some .kint
  | .floating _ => some .kfloat
  | .text _ => some .ktext
  | .blob _ => some .kblob
  | .null => none

/-- Modelled from the spec (sections 3 and 4.2): the native prepared
statement a `statement` object owns through its `stmt_` handle, together
with the thin wrapper methods that delegate to it. The compiled program is
a pure function from the bound parameter values to the result rows (the
compilation consumed the SQL text, so no re-parse is ever needed); `params`
holds the current bindings (1-based position p stored at list index p-1,
absent bindings are none and read as null); `pos` is the step cursor. -/
structure PrepStmt where
  nparams : Nat
  pnames : List (Option String)
  prog : List (Option Value) → List (List Value)
  params : List (Option Value)
  pos : Nat

/-- Modelled from the spec (section 4.2): the just-after-prepare state -
no parameter bound yet, cursor at the start. -/
def PrepStmt.prepared (n : Nat) (pnames : List (Option String))
    (prog : List (Option Value) → List (List Value)) : PrepStmt :=
  ⟨n, pnames, prog, List.replicate n none, 0⟩

/-- Modelled from the spec (section 4.2): positional `statement::bind` -
converts the caller value into the engine's native bind call, which stores
it at the 1-based index when the index is in range and otherwise reports
SQLITE_RANGE through the returned status code; it never throws (total
function into a status code and the updated state). -/
def PrepStmt.bind (q : PrepStmt) (idx : Nat) (v : Value) : Nat × PrepStmt :=
  if 1 ≤ idx ∧ idx ≤ q.nparams then
    (SQLITE_OK, { q with params := q.params.set (idx - 1) (some v) })
  else
    (SQLITE_RANGE, q)

/-- Modelled from the spec (section 4.2): the engine's parameter-name
lookup (sqlite3_bind_parameter_index) - the 1-based position of the named
parameter, or 0 when the name does not occur. -/
def PrepStmt.paramIndex (q : PrepStmt) (name : String) : Nat :=
  match q.pnames.findIdx? (fun o => o == some name) with
  | some i => i + 1
  | none => 0

/-- Modelled from the spec (section 4.2): name-based `statement::bind`
first resolves the parameter name to its positional index, then delegates
to the index form. -/
def PrepStmt.bindName (q : PrepStmt) (name : String) (v : Value) : Nat × PrepStmt :=
  q.bind (q.paramIndex name) v

/-- Modelled from the spec (section 4.2): `statement::step` advances the
cursor, returning SQLITE_ROW while a row was produced and SQLITE_DONE once
stepping is complete; stepping a finished statement stays done. -/
def PrepStmt.step (q : PrepStmt) : Nat × PrepStmt :=
  if q.pos < (q.prog q.params).length then
    (SQLITE_ROW, { q with pos := q.pos + 1 })
  else
    (SQLITE_DONE, q)

/-- Modelled from the spec (section 4.2): `statement::reset` rewinds the
cursor to the just-after-prepare position without re-parsing and without
touching the bound parameter values. -/
def PrepStmt.reset (q : PrepStmt) : Nat × PrepStmt :=
  (SQLITE_OK, { q with pos := 0 })

/-- Iterated stepping, discarding the status codes. -/
def PrepStmt.stepN (q : PrepStmt) : Nat → PrepStmt
  | 0 => q
  | n + 1 => ((q.step).2).stepN n

/-- The row the cursor currently exposes (valid after a step that returned
SQLITE_ROW, which moved `pos` one past the row it produced). -/
def PrepStmt.currentRow (q : PrepStmt) : List Value :=
  (q.prog q.params).getD (q.pos - 1) []

/-- Modelled from the spec (section 8, round-trip scenario): the compiled
program of an echoing statement such as SELECT with each parameter as a
column - one result row holding the bound parameter values in positional
order, unbound parameters read as null. -/
def echoProg (ps : List (Option Value)) : List (List Value) :=
  [ps.map (fun o => o.getD .null)]

/-- A row view (query::rows): a non-owning snapshot of the cursor's current
row of column values. -/
structure Rows where
  row : List Value

/-- Modelled from the spec (section 3, Row): the engine's column read -
the stored value at a 0-based column index; out-of-range reads are not
defensively checked by the wrapper, the model reads null there. -/
def Rows.columnValue (r : Rows) (idx : Nat) : Value :=
  r.row.getD idx .null

/-- The typed extraction rows::get dispatched by the requested static
category, the coerced result embedded back as a tagged value (source
sqlite3pp.h lines 212-214 and 259-265; coercion per the spec's matrix). -/
def Rows.getOf (r : Rows) (k : ColKind) (idx : Nat) : Value :=
  match k with
  | .kint => .integer (r.columnValue idx).asInt
  | .kfloat => .floating (r.columnValue idx).asFloat
  | .ktext => .text (r.columnValue idx).asText
  | .kblob => .blob (r.columnValue idx).asBlob

/-- rows::get specialised to an integer target (the int and long long
overloads). -/
def Rows.getInt (r : Rows) (idx : Nat) : Int :=
  (r.columnValue idx).asInt

/-- rows::get specialised to the double target. -/
def Rows.getFloat (r : Rows) (idx : Nat) : Rat :=
  (r.columnValue idx).asFloat

/-- rows::get specialised to the text targets. -/
def Rows.getText (r : Rows) (idx : Nat) : String :=
  (r.columnValue idx).asText

/-- rows::get specialised to the raw-bytes target. -/
def Rows.getBlob (r : Rows) (idx : Nat) : List Nat :=
  (r.columnValue idx).asBlob

/-- query::rows::getstream (source sqlite3pp.h lines 188-203): a row view
plus the 0-based column position idx_ the next extraction reads. -/
structure Getstream where
  rws : Rows
  idx : Nat

/-- getstream::operator>> (source sqlite3pp.h lines 193-198): assigns the
coerced value get(idx_, T()) to the target, increments idx_ by one and
returns the stream - unconditionally, with no failure branch. The pair
returned is (the stream after the call, the value assigned). -/
def Getstream.shift (g : Getstream) (k : ColKind) : Getstream × Value :=
  ({ g with idx := g.idx + 1 }, g.rws.getOf k g.idx)

/-- rows::getter (source sqlite3pp.h line 256): builds a getstream whose
starting column index defaults to 0. -/
def Rows.getter (r : Rows) : Getstream :=
  ⟨r, 0⟩

/-- command::bindstream (source sqlite3pp.h lines 154-172): the command it
binds into and the 1-based parameter position idx_ the next << call
binds. -/
structure Bindstream where
  cmd : PrepStmt
  idx : Nat

/-- bindstream::operator<< (source sqlite3pp.h lines 159-167): performs
cmd_.bind(idx_, value); when the returned code is not SQLITE_OK it throws
database_error immediately (modelled as Except.error carrying the code),
otherwise it increments idx_ by one and returns the stream. -/
def Bindstream.shift (b : Bindstream) (v : Value) : Except Nat Bindstream :=
  let res := b.cmd.bind b.idx v
  if res.1 ≠ SQLITE_OK then
    .error res.1
  else
    .ok { cmd := res.2, idx := b.idx + 1 }

/-- A chain of << calls: binds the values in order, propagating the first
thrown failure (the remaining values are never attempted, matching the
exception unwinding). -/
def Bindstream.shiftAll (b : Bindstream) : List Value → Except Nat Bindstream
  | [] => .ok b
  | v :: vs =>
    match b.shift v with
    | .error e => .error e
    | .ok b2 => b2.shiftAll vs

/-- command::binder (source sqlite3pp.h line 176): builds a bindstream
whose starting parameter index defaults to 1. -/
def PrepStmt.binder (c : PrepStmt) : Bindstream :=
  ⟨c, 1⟩

/-- The handle-affecting calls a statement object can receive over its
lifetime: a prepare that succeeded, a prepare that failed at compilation,
and an explicit finish. bind/step/reset never touch handle ownership and
need no event. -/
inductive StmtEvent where
  | prepareOk
  | prepareFail
  | finishCall
  deriving DecidableEq, Repr

/-- Modelled from the spec (section 3, Statement): the handle-ownership
state of one statement object - the native handle currently held through
stmt_ (tagged with a fresh identity so releases can be traced per handle)
and the next fresh handle identity the engine will hand out. -/
structure OwnState where
  stmt_ : Option Nat
  next : Nat
  deriving DecidableEq, Repr

/-- Modelled from the spec (section 4.2): statement::finish finalizes the
native handle if one is held and is a no-op on an already-unprepared
object. Returns the new state and the finalize calls issued (the released
handle identities, at most one). -/
def OwnState.finish (s : OwnState) : OwnState × List Nat :=
  match s.stmt_ with
  | some h => ({ s with stmt_ := none }, [h])
  | none => (s, [])

/-- Modelled from the spec (sections 4.2 and 8): statement::prepare first
releases any still-held handle (so that every successful prepare is
matched by exactly one release), then compiles the text; on success the
object holds the fresh handle, on failure it is left unprepared. -/
def OwnState.prepare (ok : Bool) (s : OwnState) : OwnState × List Nat :=
  let fin := s.finish
  if ok then
    ({ stmt_ := some fin.1.next, next := fin.1.next + 1 }, fin.2)
  else
    (fin.1, fin.2)

/-- One lifetime event applied to the ownership state. -/
def OwnState.eventAct : StmtEvent → OwnState → OwnState × List Nat
  | .prepareOk, s => s.prepare true
  | .prepareFail, s => s.prepare false
  | .finishCall, s => s.finish

/-- A run of lifetime events, accumulating the finalize calls issued. -/
def OwnState.runEvents (s : OwnState) : List StmtEvent → OwnState × List Nat
  | [] => (s, [])
  | e :: es =>
    let r1 := OwnState.eventAct e s
    let r2 := r1.1.runEvents es
    (r2.1, r1.2 ++ r2.2)

/-- Modelled from the spec (section 3, Statement): a whole object
lifetime - constructed unprepared, the events happen (an error
propagating out of the caller's block simply truncates the event list),
and the destructor runs finish implicitly. The result is every finalize
call issued over the lifetime, in order. -/
def stmtLifetimeLog (evs : List StmtEvent) : List Nat :=
  let r := (OwnState.runEvents ⟨none, 0⟩ evs)
  r.2 ++ (r.1.finish).2

/-- The number of prepare calls in a lifetime that succeeded. -/
def countPrepareOk (evs : List StmtEvent) : Nat :=
  evs.countP (fun e => e == StmtEvent.prepareOk)

/-- The two explicit terminal calls a transaction object can receive. -/
inductive TxEvent where
  | commitCall
  | rollbackCall
  deriving DecidableEq, Repr

/-- A terminal SQL action issued against the connection. -/
inductive TxAction where
  | commitA
  | rollbackA
  deriving DecidableEq, Repr

/-- Modelled from the spec (sections 3 and 4.6, Transaction): the state of
one transaction object - whether it is still active (no terminal action
fired yet) and the fcommit flag chosen at construction that selects the
destructor's default terminal action. -/
structure TxState where
  active : Bool
  fcommit : Bool
  deriving DecidableEq, Repr

/-- Modelled from the spec (section 4.6): commit() issues COMMIT and marks
the instance terminal; once terminal, a further call is a no-op. -/
def TxState.commit (s : TxState) : TxState × List TxAction :=
  if s.active then ({ s with active := false }, [.commitA]) else (s, [])

/-- Modelled from the spec (section 4.6): rollback() issues ROLLBACK and
marks the instance terminal; once terminal, a further call is a no-op. -/
def TxState.rollback (s : TxState) : TxState × List TxAction :=
  if s.active then ({ s with active := false }, [.rollbackA]) else (s, [])

/-- Modelled from the spec (section 4.6): the destructor - if not yet
terminal, issues COMMIT when fcommit was set at construction and ROLLBACK
otherwise; after an explicit call already fired it does nothing. -/
def TxState.dtor (s : TxState) : TxState × List TxAction :=
  if s.active then
    ({ s with active := false }, [if s.fcommit then .commitA else .rollbackA])
  else
    (s, [])

/-- One explicit call applied to the transaction state. -/
def TxState.eventAct : TxEvent → TxState → TxState × List TxAction
  | .commitCall, s => s.commit
  | .rollbackCall, s => s.rollback

/-- A run of explicit calls, accumulating the terminal actions issued. -/
def TxState.runEvents (s : TxState) : List TxEvent → TxState × List TxAction
  | [] => (s, [])
  | e :: es =>
    let r1 := TxState.eventAct e s
    let r2 := r1.1.runEvents es
    (r2.1, r1.2 ++ r2.2)

/-- Modelled from the spec (section 4.6): a whole transaction lifetime -
constructed active with the given fcommit flag (BEGIN succeeded, or no
object exists), the explicit calls happen (early return or a propagating
error truncates the list), then the destructor runs. The result is every
terminal action issued, in order. -/
def txLifetimeLog (fcommit : Bool) (evs : List TxEvent) : List TxAction :=
  let r := TxState.runEvents ⟨true, fcommit⟩ evs
  r.2 ++ (r.1.dtor).2

/-- The terminal action the spec says a lifetime must issue: the first
explicit call wins; with no explicit call the destructor's default fires,
COMMIT when fcommit was set and ROLLBACK otherwise. -/
def txExpectedAction (fcommit : Bool) : List TxEvent → TxAction
  | [] => if fcommit then .commitA else .rollbackA
  | .commitCall :: _ => .commitA
  | .rollbackCall :: _ => .rollbackA

/-- The observable steps of command::execute_all: preparing a segment,
finishing the spent handle, executing the current segment (recording the
status the execution returned). -/
inductive CmdEv where
  | prep (seg : Nat)
  | fin
  | exec (rc : Nat)
  deriving DecidableEq, Repr

/-- Modelled from the spec (section 4.3): the loop of execute_all, entered
with the current segment prepared - execute the current statement; if a
tail of further statement text remains, finish the current handle, prepare
the tail and execute again, until no further text remains; the status of
the final segment is returned. A segment is abstracted to the status its
execution returns. -/
def execAllGo : Nat → List Nat → List CmdEv × Nat
  | cur, [] => ([.exec cur], cur)
  | cur, t :: ts =>
    let r := execAllGo t ts
    (.exec cur :: .fin :: .prep t :: r.1, r.2)

/-- Modelled from the spec (section 4.3): a full prepare-then-execute_all
run over a semicolon-separated text, given as its list of segments. The
empty text prepares nothing and runs nothing. -/
def executeAllRun : List Nat → List CmdEv × Nat
  | [] => ([], SQLITE_OK)
  | s :: ss =>
    let r := execAllGo s ss
    (.prep s :: r.1, r.2)

/-- The segments prepared during a run, in order. -/
def prepSegs (evs : List CmdEv) : List Nat :=
  evs.filterMap (fun e => match e with | .prep s => some s | _ => none)

/-- The execution statuses produced during a run, in order. -/
def execRcs (evs : List CmdEv) : List Nat :=
  evs.filterMap (fun e => match e with | .exec rc => some rc | _ => none)

/-- Modelled from the spec (sections 3 and 4.4, query_iterator): a query
iterator is either the canonical end iterator built by end() without
touching the engine, or a live iterator referencing a query (its identity
qid, the step ordinal reached, the aliased cursor state, and the status
code the last step returned). -/
inductive QIter where
  | endIt
  | live (qid : Nat) (stepNo : Nat) (q : PrepStmt) (rc : Nat)

/-- Modelled from the spec (section 4.4): begin() constructs an iterator
that performs the initial step eagerly, so it already references the first
row or the end position when no rows exist. -/
def QIter.begin (qid : Nat) (q : PrepStmt) : QIter :=
  let r := q.step
  .live qid 0 r.2 r.1

/-- Modelled from the spec (section 4.4): operator++ performs the next
step on the referenced query; the canonical end iterator references no
query and is left unchanged. -/
def QIter.inc : QIter → QIter
  | .endIt => .endIt
  | .live qid n q _ =>
    let r := q.step
    .live qid (n + 1) r.2 r.1

/-- Iterated increments. -/
def QIter.incN (it : QIter) : Nat → QIter
  | 0 => it
  | n + 1 => it.inc.incN n

/-- Whether an iterator represents the exhausted/end position: the
canonical end iterator, or a live iterator whose last step reported
done. -/
def QIter.isEnd : QIter → Bool
  | .endIt => true
  | .live _ _ _ rc => rc == SQLITE_DONE

/-- The identity of the query a live iterator references. -/
def QIter.qid? : QIter → Option Nat
  | .endIt => none
  | .live qid _ _ _ => some qid

/-- The step ordinal a live iterator has reached. -/
def QIter.stepNo? : QIter → Option Nat
  | .endIt => none
  | .live _ n _ _ => some n

/-- Modelled from the spec (section 3, query_iterator): operator== - two
iterators compare equal exactly when both represent the exhausted/end
position, or both are non-end and reference the same query (by identity)
at the same step. -/
def QIter.eq (a b : QIter) : Bool :=
  (a.isEnd && b.isEnd) ||
    (!a.isEnd && !b.isEnd && a.qid? == b.qid? && a.stepNo? == b.stepNo?)

/-- Soundness of a step status held by an iterator: whenever the recorded
code says done, the aliased cursor is a fixpoint of step. Every iterator
reached by begin and increments satisfies this. -/
def QIter.stepsSound : QIter → Prop
  | .endIt => True
  | .live _ _ q rc => rc = SQLITE_DONE → q.step = (SQLITE_DONE, q)

/-- The bind-step-extract pipeline of the round-trip property on an
echoing statement: prepare with n parameters, bind v at 1-based position
p, step once, and take the exposed row view. -/
def bindStepRow (n : Nat) (pn : List (Option String)) (p : Nat) (v : Value) : Rows :=
  let st := PrepStmt.prepared n pn echoProg
  let st1 := (st.bind p v).2
  let st2 := (st1.step).2
  ⟨st2.currentRow⟩

/- ======================  theorems  ====================== -/

theorem TxState.runEvents_inactive (f : Bool) (evs : List TxEvent) :
    TxState.runEvents ⟨false, f⟩ evs = (⟨false, f⟩, []) := by
  induction evs with
  | nil => rfl
  | cons e es ih =>
    cases e <;>
      simp [TxState.runEvents, TxState.eventAct, TxState.commit, TxState.rollback, ih]

/-- C2: for every transaction object, over any run exactly one of COMMIT
or ROLLBACK is issued - never zero and never two: the lifetime log is the
singleton of the first explicit call's action, or of the destructor's
default action (COMMIT when fcommit was set at construction, otherwise
ROLLBACK) when no explicit call happened; once terminal, further explicit
calls and the destructor are no-ops. -/
theorem transaction_exactly_one_terminal (fcommit : Bool) (evs : List TxEvent) :
    txLifetimeLog fcommit evs = [txExpectedAction fcommit evs] := by
  cases evs with
  | nil => simp [txLifetimeLog, TxState.runEvents, TxState.dtor, txExpectedAction]
  | cons e es =>
    cases e <;>
      simp [txLifetimeLog, TxState.runEvents, TxState.eventAct, TxState.commit,
        TxState.rollback, TxState.dtor, TxState.runEvents_inactive, txExpectedAction]

theorem execAllGo_spec (cur : Nat) (ts : List Nat) :
    prepSegs (execAllGo cur ts).1 = ts ∧
      execRcs (execAllGo cur ts).1 = cur :: ts ∧
      (execAllGo cur ts).2 = ts.getLastD cur := by
  induction ts generalizing cur with
  | nil => simp [execAllGo, prepSegs, execRcs]
  | cons t ts ih =>
    obtain ⟨h1, h2, h3⟩ := ih t
    refine ⟨?_, ?_, ?_⟩
    · simpa [execAllGo, prepSegs] using h1
    · simpa [execAllGo, execRcs] using h2
    · rw [List.getLastD_cons]
      simpa [execAllGo] using h3

/-- C3: for every SQL text of k semicolon-separated statements (k at
least one, given as the nonempty segment list s :: ss), execute_all
prepares exactly the k segments in source order, executes exactly the k
segments in source order (k prepare/execute cycles), and returns the
status of the final segment. -/
theorem execute_all_cycles (s : Nat) (ss : List Nat) :
    prepSegs (executeAllRun (s :: ss)).1 = s :: ss ∧
      execRcs (executeAllRun (s :: ss)).1 = s :: ss ∧
      (executeAllRun (s :: ss)).2 = (s :: ss).getLastD 0 := by
  obtain ⟨h1, h2, h3⟩ := execAllGo_spec s ss
  refine ⟨?_, ?_, ?_⟩
  · simpa [executeAllRun, prepSegs] using h1
  · simpa [executeAllRun, execRcs] using h2
  · rw [List.getLastD_cons]
    simpa [executeAllRun] using h3

/-- C9: getstream::operator>> has no failure branch: on every call, for
every column position and every requested storage class, it assigns the
coerced value get(idx, T()) to the target, advances the column index by
exactly one, leaves the row view untouched, and returns the stream - it
is a total function with no error outcome. -/
theorem getstream_shift_total (g : Getstream) (k : ColKind) :
    (g.shift k).1.idx = g.idx + 1 ∧ (g.shift k).1.rws = g.rws ∧
      (g.shift k).2 = g.rws.getOf k g.idx :=
  ⟨rfl, rfl, rfl⟩

/-- C4: the positional bind call reports failure only through a non-OK
status code (out of range yields SQLITE_RANGE with the statement
unchanged) and never throws, while bindstream::operator<< throws a
database_error carrying the failing code immediately on the first bind
returning a non-SQLITE_OK code - so a chain stops there and no later bind
is attempted - and on an SQLITE_OK bind advances its position counter by
exactly one. -/
theorem bind_code_bindstream_throw :
    (∀ (q : PrepStmt) (idx : Nat) (v : Value), ¬(1 ≤ idx ∧ idx ≤ q.nparams) →
        q.bind idx v = (SQLITE_RANGE, q)) ∧
      (∀ (b : Bindstream) (v : Value), (b.cmd.bind b.idx v).1 ≠ SQLITE_OK →
        b.shift v = .error (b.cmd.bind b.idx v).1) ∧
      (∀ (b : Bindstream) (v : Value), (b.cmd.bind b.idx v).1 = SQLITE_OK →
        b.shift v = .ok ⟨(b.cmd.bind b.idx v).2, b.idx + 1⟩) ∧
      (∀ (b : Bindstream) (v : Value) (vs : List Value) (e : Nat),
        b.shift v = .error e → b.shiftAll (v :: vs) = .error e) := by
  refine ⟨?_, ?_, ?_, ?_⟩
  · intro q idx v h
    simp [PrepStmt.bind, h]
  · intro b v h
    simp [Bindstream.shift, h]
  · intro b v h
    simp [Bindstream.shift, h]
  · intro b v vs e h
    simp [Bindstream.shiftAll, h]

theorem bind_code_bindstream_throw_witness :
    ((¬(1 ≤ 2 ∧ 2 ≤ (PrepStmt.prepared 1 [] echoProg).nparams)) ∧
        (PrepStmt.prepared 1 [] echoProg).bind 2 (.integer 5) =
          (SQLITE_RANGE, PrepStmt.prepared 1 [] echoProg)) ∧
      (((Bindstream.mk (PrepStmt.prepared 0 [] echoProg) 1).cmd.bind
            (Bindstream.mk (PrepStmt.prepared 0 [] echoProg) 1).idx (.integer 7)).1 ≠ SQLITE_OK ∧
        (Bindstream.mk (PrepStmt.prepared 0 [] echoProg) 1).shiftAll
            [.integer 7, .integer 8] = .error SQLITE_RANGE) ∧
      (((PrepStmt.prepared 1 [] echoProg).binder.cmd.bind
            (PrepStmt.prepared 1 [] echoProg).binder.idx (.integer 7)).1 = SQLITE_OK ∧
        ((PrepStmt.prepared 1 [] echoProg).binder.shift (.integer 7)).map
            (fun b => b.idx) = .ok 2) := by
  refine ⟨⟨?_, ?_⟩, ⟨?_, ?_⟩, ⟨?_, ?_⟩⟩
  · decide
  · exact bind_code_bindstream_throw.1 (PrepStmt.prepared 1 [] echoProg) 2
      (.integer 5) (by decide)
  · decide
  · have h := bind_code_bindstream_throw.2.2.2
      (Bindstream.mk (PrepStmt.prepared 0 [] echoProg) 1) (.integer 7) [.integer 8]
      SQLITE_RANGE (by rfl)
    exact h
  · decide
  · have h := bind_code_bindstream_throw.2.2.1 (PrepStmt.prepared 1 [] echoProg).binder
      (.integer 7) (by decide)
    rw [h]
    rfl

/-- C10: the default starting position of command::binder is parameter
index 1 and the default starting position of rows::getter is column index
0 - the streaming interfaces address bind parameters 1-based and result
columns 0-based, so on a statement with one parameter the default binder's
first bind succeeds and stores the first (and only) parameter, and the
default getter's first extraction reads column 0. -/
theorem binder_getter_defaults :
    (∀ c : PrepStmt, c.binder.idx = 1) ∧
      (∀ r : Rows, r.getter.idx = 0) ∧
      (∀ (pn : List (Option String)) (prog : List (Option Value) → List (List Value))
          (v : Value),
        (PrepStmt.prepared 1 pn prog).binder.shift v =
          .ok ⟨⟨1, pn, prog, [some v], 0⟩, 2⟩) ∧
      (∀ (r : Rows) (k : ColKind), (r.getter.shift k).2 = r.getOf k 0) := by
  refine ⟨fun c => rfl, fun r => rfl, fun pn prog v => ?_, fun r k => rfl⟩
  rfl

theorem OwnState.finish_snd (s : OwnState) : (s.finish).2 = s.stmt_.toList := by
  cases hs : s.stmt_ <;> simp [OwnState.finish, hs]

theorem OwnState.runEvents_trace (evs : List StmtEvent) (s : OwnState) :
    (s.runEvents evs).1.next = s.next + countPrepareOk evs ∧
      (s.runEvents evs).2 ++ (s.runEvents evs).1.stmt_.toList =
        s.stmt_.toList ++ List.range' s.next (countPrepareOk evs) := by
  induction evs generalizing s with
  | nil => simp [OwnState.runEvents, countPrepareOk]
  | cons e es ih =>
    obtain ⟨st, nx⟩ := s
    cases e <;> cases st <;>
      simp [OwnState.runEvents, OwnState.eventAct, OwnState.prepare, OwnState.finish,
        countPrepareOk, List.countP_cons, ih, List.range'] <;>
      omega

/-- C1: for every statement object, over a whole lifetime (any sequence of
successful prepares, failed prepares and explicit finish calls, closed by
the implicit destructor finish - an error propagating out of the caller's
block merely truncates the sequence), the finalize calls issued are
exactly one per successful prepare, in order and with no handle released
twice (the log is the duplicate-free list of the handles issued), and
finish on an object holding no handle is a no-op. -/
theorem statement_release_matches_prepare (evs : List StmtEvent) :
    stmtLifetimeLog evs = List.range (countPrepareOk evs) ∧
      (stmtLifetimeLog evs).length = countPrepareOk evs ∧
      (stmtLifetimeLog evs).Nodup ∧
      (∀ n : Nat, OwnState.finish ⟨none, n⟩ = (⟨none, n⟩, [])) := by
  have h2 := (OwnState.runEvents_trace evs ⟨none, 0⟩).2
  have hlog : stmtLifetimeLog evs = List.range (countPrepareOk evs) := by
    rw [List.range_eq_range']
    simpa [stmtLifetimeLog, OwnState.finish_snd] using h2
  exact ⟨hlog, by simp [hlog], by simp [hlog, List.nodup_range], fun n => rfl⟩

theorem bindStepRow_columnValue (n : Nat) (pn : List (Option String)) (p : Nat)
    (h1 : 1 ≤ p) (h2 : p ≤ n) (v : Value) :
    (bindStepRow n pn p v).columnValue (p - 1) = v := by
  have hlt : p - 1 < n := by omega
  have hb : (PrepStmt.prepared n pn echoProg).bind p v =
      (SQLITE_OK, { PrepStmt.prepared n pn echoProg with
        params := (List.replicate n (none : Option Value)).set (p - 1) (some v) }) := by
    simp [PrepStmt.bind, PrepStmt.prepared, h1, h2]
  simp only [bindStepRow, hb]
  simp [PrepStmt.step, echoProg, PrepStmt.currentRow, Rows.columnValue, PrepStmt.prepared]
  rw [List.getElem?_set_eq_of_lt _ (by simpa using hlt)]
  rfl

/-- C5: on an echoing statement, binding a value V of integer, floating,
text, or binary category at 1-based parameter position p (in range),
then stepping, then extracting with the matching static type at the
corresponding column returns V unchanged; binding by name resolves the
name to its position and delegates to the positional form, so the same
round-trip holds through a name that resolves to p. -/
theorem bind_step_get_round_trip (n : Nat) (pn : List (Option String)) (p : Nat)
    (h1 : 1 ≤ p) (h2 : p ≤ n) :
    (∀ i : Int, (bindStepRow n pn p (.integer i)).getInt (p - 1) = i) ∧
      (∀ r : Rat, (bindStepRow n pn p (.floating r)).getFloat (p - 1) = r) ∧
      (∀ s : String, (bindStepRow n pn p (.text s)).getText (p - 1) = s) ∧
      (∀ b : List Nat, (bindStepRow n pn p (.blob b)).getBlob (p - 1) = b) ∧
      (∀ (name : String) (v : Value),
        (PrepStmt.prepared n pn echoProg).paramIndex name = p →
          (PrepStmt.prepared n pn echoProg).bindName name v =
            (PrepStmt.prepared n pn echoProg).bind p v) := by
  refine ⟨fun i => ?_, fun r => ?_, fun s => ?_, fun b => ?_, fun name v hp => ?_⟩
  · simp [Rows.getInt, bindStepRow_columnValue n pn p h1 h2, Value.asInt]
  · simp [Rows.getFloat, bindStepRow_columnValue n pn p h1 h2, Value.asFloat]
  · simp [Rows.getText, bindStepRow_columnValue n pn p h1 h2, Value.asText]
  · simp [Rows.getBlob, bindStepRow_columnValue n pn p h1 h2, Value.asBlob]
  · rw [PrepStmt.bindName, hp]

theorem bind_step_get_round_trip_witness :
    ((1 : Nat) ≤ 1 ∧ (1 : Nat) ≤ 2) ∧
      (bindStepRow 2 [] 1 (.integer 42)).getInt 0 = 42 ∧
      (bindStepRow 2 [] 1 (.text "hi")).getText 0 = "hi" :=
  ⟨by decide, (bind_step_get_round_trip 2 [] 1 (by decide) (by decide)).1 42,
    (bind_step_get_round_trip 2 [] 1 (by decide) (by decide)).2.2.1 "hi"⟩

theorem PrepStmt.step_reset (q : PrepStmt) : ((q.step).2.reset).2 = (q.reset).2 := by
  unfold PrepStmt.step
  split <;> rfl

theorem PrepStmt.stepN_reset (q : PrepStmt) (m : Nat) :
    ((q.stepN m).reset).2 = (q.reset).2 := by
  induction m generalizing q with
  | zero => rfl
  | succ m ih => rw [PrepStmt.stepN, ih, PrepStmt.step_reset]

/-- C6: from the just-after-prepare state, after any number of steps,
reset restores exactly the just-after-prepare state - without re-parsing
(same compiled program) and preserving all bound parameter values - so
re-stepping without re-binding returns the same status and reproduces the
same first row as the original first step. -/
theorem reset_restep_first_row (st : PrepStmt) (h : st.pos = 0) (m : Nat) :
    ((st.stepN m).reset).2 = st ∧
      (((st.stepN m).reset).2).step = st.step ∧
      (((st.stepN m).reset).2).params = st.params ∧
      (((st.stepN m).reset).2).prog = st.prog ∧
      ((((st.stepN m).reset).2.step).2).currentRow = ((st.step).2).currentRow := by
  have key : ((st.stepN m).reset).2 = st := by
    rw [PrepStmt.stepN_reset]
    cases st
    simp_all [PrepStmt.reset]
  exact ⟨key, by rw [key], by rw [key], by rw [key], by rw [key]⟩

theorem reset_restep_first_row_witness :
    (PrepStmt.prepared 1 [] echoProg).pos = 0 ∧
      (((PrepStmt.prepared 1 [] echoProg).stepN 3).reset).2 =
        PrepStmt.prepared 1 [] echoProg :=
  ⟨rfl, (reset_restep_first_row (PrepStmt.prepared 1 [] echoProg) rfl 3).1⟩

theorem PrepStmt.step_done_fix (q : PrepStmt) (h : (q.step).1 = SQLITE_DONE) :
    q.step = (SQLITE_DONE, q) := by
  by_cases hc : q.pos < (q.prog q.params).length
  · simp [PrepStmt.step, hc, SQLITE_ROW, SQLITE_DONE] at h
  · simp [PrepStmt.step, hc]

theorem QIter.inc_stepsSound (it : QIter) : it.inc.stepsSound := by
  cases it with
  | endIt => trivial
  | live qid n q rc =>
    show (q.step).1 = SQLITE_DONE → ((q.step).2).step = (SQLITE_DONE, (q.step).2)
    intro hd
    have hfix := PrepStmt.step_done_fix q hd
    rw [hfix]
    exact hfix

theorem QIter.begin_stepsSound (qid : Nat) (q : PrepStmt) :
    (QIter.begin qid q).stepsSound := by
  show (q.step).1 = SQLITE_DONE → ((q.step).2).step = (SQLITE_DONE, (q.step).2)
  intro hd
  have hfix := PrepStmt.step_done_fix q hd
  rw [hfix]
  exact hfix

theorem QIter.incN_stepsSound (it : QIter) (hs : it.stepsSound) (m : Nat) :
    (it.incN m).stepsSound := by
  induction m generalizing it with
  | zero => exact hs
  | succ m ih => exact ih it.inc (QIter.inc_stepsSound it)

theorem QIter.inc_of_end (it : QIter) (hs : it.stepsSound) (he : it.isEnd = true) :
    it.inc.isEnd = true := by
  cases it with
  | endIt => rfl
  | live qid n q rc =>
    simp only [QIter.isEnd, beq_iff_eq] at he
    have hfix := hs he
    simp [QIter.inc, QIter.isEnd, hfix]

theorem QIter.eq_end_of_end (it : QIter) (he : it.isEnd = true) :
    QIter.eq it QIter.endIt = true := by
  have hend : QIter.endIt.isEnd = true := rfl
  simp [QIter.eq, he, hend]

theorem QIter.incN_end (it : QIter) (hs : it.stepsSound) (he : it.isEnd = true) (k : Nat) :
    QIter.eq (it.incN k) QIter.endIt = true := by
  induction k generalizing it with
  | zero => exact QIter.eq_end_of_end it he
  | succ k ih => exact ih it.inc (QIter.inc_stepsSound it) (QIter.inc_of_end it hs he)

/-- C7: for every query iterator reached from begin() by increments, once
the underlying step has first reported done the iterator compares equal to
the canonical end iterator, and it remains equal to the end iterator under
every further increment. -/
theorem iterator_exhaustion (qid : Nat) (q : PrepStmt) (m k : Nat)
    (h : ((QIter.begin qid q).incN m).isEnd = true) :
    QIter.eq (((QIter.begin qid q).incN m).incN k) QIter.endIt = true :=
  QIter.incN_end _ (QIter.incN_stepsSound _ (QIter.begin_stepsSound qid q) m) h k

theorem iterator_exhaustion_witness :
    ((QIter.begin 0 (PrepStmt.prepared 0 [] (fun _ => []))).incN 0).isEnd = true ∧
      QIter.eq (((QIter.begin 0 (PrepStmt.prepared 0 [] (fun _ => []))).incN 0).incN 2)
        QIter.endIt = true :=
  ⟨rfl, iterator_exhaustion 0 (PrepStmt.prepared 0 [] (fun _ => [])) 0 2 rfl⟩

/-- C8: operator== on query iterators returns true exactly when both
represent the exhausted/end position, or when both are non-end and
reference the same query object (by identity) at the same step; in
particular two non-end iterators over different query objects never
compare equal, whatever their underlying cursor states hold. -/
theorem iterator_equality_identity :
    (∀ a b : QIter, QIter.eq a b = true ↔
        (a.isEnd = true ∧ b.isEnd = true) ∨
          (a.isEnd = false ∧ b.isEnd = false ∧ a.qid? = b.qid? ∧ a.stepNo? = b.stepNo?)) ∧
      (∀ a b : QIter, a.isEnd = false → b.isEnd = false → a.qid? ≠ b.qid? →
        QIter.eq a b = false) := by
  constructor
  · intro a b
    simp only [QIter.eq, Bool.or_eq_true, Bool.and_eq_true, beq_iff_eq,
      Bool.not_eq_true']
    tauto
  · intro a b ha hb hq
    simp [QIter.eq, ha, hb, hq]

theorem iterator_equality_identity_witness :
    (QIter.live 0 0 (PrepStmt.prepared 0 [] (fun _ => [])) SQLITE_ROW).isEnd = false ∧
      (QIter.live 1 0 (PrepStmt.prepared 0 [] (fun _ => [])) SQLITE_ROW).isEnd = false ∧
      (QIter.live 0 0 (PrepStmt.prepared 0 [] (fun _ => [])) SQLITE_ROW).qid? ≠
        (QIter.live 1 0 (PrepStmt.prepared 0 [] (fun _ => [])) SQLITE_ROW).qid? ∧
      QIter.eq (QIter.live 0 0 (PrepStmt.prepared 0 [] (fun _ => [])) SQLITE_ROW)
        (QIter.live 1 0 (PrepStmt.prepared 0 [] (fun _ => [])) SQLITE_ROW) = false :=
  ⟨rfl, rfl, by decide,
    iterator_equality_identity.2 _ _ rfl rfl (by decide)⟩

end Sqlite3pp
